import Mathlib

/-!
Shallow embedding of the isucon8-final mock bank service (`init.go`): the three
tables (`user`, `credit`, `reserve`), the six POST handlers (register, add_credit,
check, reserve, commit, cancel), the ledger helper `modyfyCredit` and the scoped
transaction primitive `txScorp`.  SQL result sets are modelled as Lean lists in
table order; timestamps are integers (seconds); MySQL `NOW()` is an explicit
`now` parameter.
-/

namespace IsuBank

/-- A row of the `user` table: `id` (PK), `bank_id` (UNIQUE), and the cached
balance column `credit`. -/
structure UserRow where
  id : Int
  bankId : String
  credit : Int
deriving DecidableEq

/-- A row of the append-only `credit` ledger table. -/
structure CreditRow where
  id : Int
  userId : Int
  amount : Int
  note : String
deriving DecidableEq

/-- A row of the `reserve` table.  `expireAt` is always `createdAt + 60`. -/
structure ReserveRow where
  id : Int
  userId : Int
  amount : Int
  note : String
  isMinus : Bool
  createdAt : Int
  expireAt : Int
deriving DecidableEq

/-- The whole database: the three tables plus the auto-increment counters. -/
structure DB where
  users : List UserRow
  credits : List CreditRow
  reserves : List ReserveRow
  nextUserId : Int
  nextCreditId : Int
  nextReserveId : Int
deriving DecidableEq

/-- The sentinel errors of the service (`CreditIsInsufficient`, `ReserveIsExpires`,
`ReserveIsAlreadyCommited`) plus the wrapped-internal-error case. -/
inductive BankErr where
  | creditInsufficient
  | reserveExpired
  | reserveAlreadyCommited
  | internalErr (msg : String)
deriving DecidableEq

deriving instance DecidableEq for Except

/-- An HTTP response: status code and JSON body, as produced by `Error` / `Success`. -/
structure Response where
  code : Nat
  body : String
deriving DecidableEq

/-- `ResOK`: the body written by `Success`. -/
def ResOK : String := "\x7b\"status\":\"ok\"\x7d"

/-- `ResError` instantiated at a message: the body written by `Error`. -/
def errorBody (msg : String) : String :=
  "\x7b\"status\":\"ng\",\"error\":\"" ++ msg ++ "\"\x7d"

/-- The response written by `Error(w, msg, code)`. -/
def errorResponse (msg : String) (code : Nat) : Response :=
  ⟨code, errorBody msg⟩

/-- The response written by `Success(w)`. -/
def successResponse : Response :=
  ⟨200, ResOK⟩

/-- The success response of `Reserve`, carrying the new reservation id. -/
def reserveOkResponse (rid : Int) : Response :=
  ⟨200, "\x7b\"status\":\"ok\",\"reserve_id\":" ++ toString rid ++ "\x7d"⟩

/-- `SELECT IFNULL(SUM(amount), 0) FROM credit WHERE user_id = ?`. -/
def sumCredits (credits : List CreditRow) (userID : Int) : Int :=
  ((credits.filter (fun c => c.userId == userID)).map (fun c => c.amount)).sum

/-- `SELECT IFNULL(SUM(amount), 0) FROM reserve WHERE user_id = ? AND is_minus = 1
AND expire_at >= ?` — the encumbrance sum used by `Reserve`'s solvency check,
with `?` bound to the new reservation's own expiry `horizon`. -/
def pendingWithdrawal (db : DB) (userID : Int) (horizon : Int) : Int :=
  ((db.reserves.filter
      (fun r => r.userId == userID && r.isMinus && decide (horizon ≤ r.expireAt))).map
    (fun r => r.amount)).sum

/-- `Handler.modyfyCredit`: append a ledger row, recompute the user's ledger sum,
and store it into `user.credit` — all in the caller's transaction. -/
def modyfyCredit (db : DB) (userID price : Int) (memo : String) : DB :=
  let db1 : DB :=
    { db with
      credits := db.credits ++ [⟨db.nextCreditId, userID, price, memo⟩],
      nextCreditId := db.nextCreditId + 1 }
  let s := sumCredits db1.credits userID
  { db1 with
    users := db1.users.map (fun u => if u.id == userID then { u with credit := s } else u) }

/-- `Handler.filterBankID`'s lookup: `SELECT id FROM user WHERE bank_id = ? LIMIT 1`. -/
def findUser (db : DB) (bankID : String) : Option UserRow :=
  db.users.find? (fun u => u.bankId == bankID)

/-- Modelled from the spec: the initial value of the `user.credit` column on
`INSERT INTO user (bank_id, created_at)`.  The schema DDL is not part of the
source tree; invariant I1 (`credit_cache == SUM(credit.amount)`) forces a new
user's cached credit to be 0, a new user having no ledger entries. -/
def newUserCredit : Int := 0

/-- `Handler.Register`: insert a fresh user; a UNIQUE violation on `bank_id`
(MySQL error 1062) maps to `"bank_id already exists"`. -/
def registerHandler (db : DB) (bankID : String) : DB × Response :=
  if bankID == "" then (db, errorResponse "bank_id is required" 400)
  else if db.users.any (fun u => u.bankId == bankID) then
    (db, errorResponse "bank_id already exists" 400)
  else
    ({ db with
        users := db.users ++ [⟨db.nextUserId, bankID, newUserCredit⟩],
        nextUserId := db.nextUserId + 1 },
      successResponse)

/-- `Handler.AddCredit`: price must be positive; lock the user row, then
`modyfyCredit` with the fixed memo. -/
def addCreditHandler (db : DB) (bankID : String) (price : Int) : DB × Response :=
  if price ≤ 0 then (db, errorResponse "price must be upper than 0" 400)
  else if bankID == "" then (db, errorResponse "bank_id is required" 400)
  else
    match findUser db bankID with
    | none => (db, errorResponse "user not found" 404)
    | some u => (modyfyCredit db u.id price "by add credit API", successResponse)

/-- `Handler.Check`: lock the user row, read the cached `credit` column only,
compare with `price`; `CreditIsInsufficient` is reported as HTTP 200 `ng`. -/
def checkHandler (db : DB) (bankID : String) (price : Int) : DB × Response :=
  if price ≤ 0 then (db, errorResponse "price must be upper than 0" 400)
  else if bankID == "" then (db, errorResponse "bank_id is required" 400)
  else
    match findUser db bankID with
    | none => (db, errorResponse "user not found" 404)
    | some u =>
      if u.credit < price then (db, errorResponse "credit is insufficient" 200)
      else (db, successResponse)

/-- The memo string `fmt.Sprintf("app:%s, price:%d", …)` built by `Reserve`. -/
def reserveNote (appID : String) (price : Int) : String :=
  "app:" ++ appID ++ ", price:" ++ toString price

/-- The transaction body of `Handler.Reserve`: solvency check for negative
amounts against `ledger sum + pending withdrawals at the new expiry horizon`,
then insert the reservation row with `expire_at = now + 60`. -/
def reserveTx (db : DB) (userID price : Int) (memo : String) (now : Int) :
    Except BankErr (DB × Int) :=
  let expire := now + 60
  let isMinus := price < 0
  let inserted : DB × Int :=
    ({ db with
        reserves := db.reserves ++
          [⟨db.nextReserveId, userID, price, memo, decide isMinus, now, expire⟩],
        nextReserveId := db.nextReserveId + 1 },
      db.nextReserveId)
  if isMinus then
    let fixed := sumCredits db.credits userID
    let reserved := pendingWithdrawal db userID expire
    if fixed + reserved + price < 0 then .error .creditInsufficient
    else .ok inserted
  else .ok inserted

/-- `Handler.Reserve`: argument checks, user lookup, then `reserveTx` inside the
scoped transaction; `CreditIsInsufficient` maps to HTTP 200 `ng`, any other
error to 500, success to `{status:ok, reserve_id}`. -/
def reserveHandler (db : DB) (appID bankID : String) (price : Int) (now : Int) :
    DB × Response :=
  if price == 0 then (db, errorResponse "price is 0" 400)
  else if bankID == "" then (db, errorResponse "bank_id is required" 400)
  else
    match findUser db bankID with
    | none => (db, errorResponse "user not found" 404)
    | some u =>
      match reserveTx db u.id price (reserveNote appID price) now with
      | .error .creditInsufficient => (db, errorResponse "credit is insufficient" 200)
      | .error _ => (db, errorResponse "internal server error" 500)
      | .ok (db1, rid) => (db1, reserveOkResponse rid)

/-- `SELECT COUNT(id) FROM reserve WHERE id IN (ids) AND expire_at >= NOW()` —
the existence-and-liveness precheck of `Commit`. -/
def liveCount (db : DB) (ids : List Int) (now : Int) : Nat :=
  (db.reserves.filter (fun r => ids.contains r.id && decide (now ≤ r.expireAt))).length

/-- `SELECT … FROM reserve WHERE id IN (ids) FOR UPDATE`: the reservation rows
matching the id list, in table order. -/
def materialise (db : DB) (ids : List Int) : List ReserveRow :=
  db.reserves.filter (fun r => ids.contains r.id)

/-- The user-lock statement of `Commit` and `Cancel`:
`SELECT id FROM user WHERE id IN (userids)  LIMIT 1 FOR UPDATE`, where `userids`
is the materialised reservations' `user_id` column in read order (duplicates
kept, unsorted).  The result — hence the set of user rows actually returned and
locked — is cut to a single row by `LIMIT 1`. -/
def lockStepUsers (db : DB) (ids : List Int) : List Int :=
  let userIDs := (materialise db ids).map (fun r => r.userId)
  ((db.users.filter (fun u => userIDs.contains u.id)).map (fun u => u.id)).take 1

/-- The user-locking step as the spec words it: the involved users' ids,
deduplicated, in ascending `user_id` order.  Stated only to be compared with
`lockStepUsers`, the step the code performs. -/
def specLockStepUsers (db : DB) (ids : List Int) : List Int :=
  (((materialise db ids).map (fun r => r.userId)).dedup).insertionSort (fun a b => a ≤ b)

/-- The transaction body of `Handler.Commit`: liveness precheck, locking read,
user lock, `modyfyCredit` per reservation in read order, then delete the rows. -/
def commitTx (db : DB) (ids : List Int) (now : Int) : Except BankErr DB :=
  let l := ids.length
  if liveCount db ids now < l then .error .reserveExpired
  else
    let reserves := materialise db ids
    if reserves.length ≠ l then .error .reserveAlreadyCommited
    else
      let db1 := reserves.foldl (fun d r => modyfyCredit d r.userId r.amount r.note) db
      .ok { db1 with reserves := db1.reserves.filter (fun r => !(ids.contains r.id)) }

/-- `Handler.Commit`: empty-list check, then `commitTx` inside the scoped
transaction; the two sentinel errors map to HTTP 400 with their messages,
anything else to 500; the state is rolled back on any error. -/
def commitHandler (db : DB) (ids : List Int) (now : Int) : DB × Response :=
  if ids.length == 0 then (db, errorResponse "reserve_ids is required" 400)
  else
    match commitTx db ids now with
    | .error .reserveExpired => (db, errorResponse "reserve is already expired" 400)
    | .error .reserveAlreadyCommited => (db, errorResponse "reserve is already commited" 400)
    | .error _ => (db, errorResponse "internal server error" 500)
    | .ok db1 => (db1, successResponse)

/-- The transaction body of `Handler.Cancel`: existence precheck **without** the
`expire_at` predicate (returning `ReserveIsAlreadyCommited` when short), locking
read, user lock, then delete the rows; no ledger write. -/
def cancelTx (db : DB) (ids : List Int) : Except BankErr DB :=
  let l := ids.length
  if (materialise db ids).length < l then .error .reserveAlreadyCommited
  else
    let reserves := materialise db ids
    if reserves.length ≠ l then .error .reserveAlreadyCommited
    else .ok { db with reserves := db.reserves.filter (fun r => !(ids.contains r.id)) }

/-- `Handler.Cancel`: empty-list check, then `cancelTx` inside the scoped
transaction, with the same error-to-response mapping as `Commit`. -/
def cancelHandler (db : DB) (ids : List Int) : DB × Response :=
  if ids.length == 0 then (db, errorResponse "reserve_ids is required" 400)
  else
    match cancelTx db ids with
    | .error .reserveExpired => (db, errorResponse "reserve is already expired" 400)
    | .error .reserveAlreadyCommited => (db, errorResponse "reserve is already commited" 400)
    | .error _ => (db, errorResponse "internal server error" 500)
    | .ok db1 => (db1, successResponse)

/-- The three ways the closure given to `txScorp` can exit: normal return of a
new state, an error return, or abrupt termination (a Go panic). -/
inductive TxOut (σ : Type) where
  | ok (s : σ)
  | err (e : BankErr)
  | panicEnd (msg : String)

/-- How the transaction ended. -/
inductive TxEnd where
  | committed
  | rolledBack
deriving DecidableEq

/-- `Handler.txScorp`: run the closure in a transaction; commit exactly when it
returns nil, roll back on an error (propagated verbatim) and on a recovered
panic (converted to an internal error). -/
def txScorp (db : DB) (f : DB → TxOut DB) : DB × Option BankErr × TxEnd :=
  match f db with
  | .ok db1 => (db1, none, .committed)
  | .err e => (db, some e, .rolledBack)
  | .panicEnd msg =>
      (db, some (.internalErr ("panic in transaction: " ++ msg)), .rolledBack)

/-- Invariant I1: every user's cached `credit` column equals the sum of their
ledger entries. -/
def creditCacheInv (db : DB) : Prop :=
  ∀ u ∈ db.users, u.credit = sumCredits db.credits u.id

/-- Well-formedness: user ids stay below the auto-increment counter. -/
def idsBounded (db : DB) : Prop :=
  ∀ u ∈ db.users, u.id < db.nextUserId

/-- Well-formedness: every ledger entry references an existing user. -/
def creditsOwned (db : DB) : Prop :=
  ∀ c ∈ db.credits, ∃ u ∈ db.users, c.userId = u.id

/-- The identifying content of a ledger row: `(user_id, amount, note)`. -/
def creditProj (c : CreditRow) : Int × Int × String :=
  (c.userId, c.amount, c.note)

/-- The content a committed reservation contributes to the ledger. -/
def reserveProj (r : ReserveRow) : Int × Int × String :=
  (r.userId, r.amount, r.note)

theorem sumCredits_append_single (cs : List CreditRow) (c : CreditRow) (x : Int) :
    sumCredits (cs ++ [c]) x
      = sumCredits cs x + (if c.userId = x then c.amount else 0) := by
  by_cases h : c.userId = x <;>
    simp [sumCredits, List.filter_append, h]

theorem modyfyCredit_reserves (db : DB) (uid amt : Int) (memo : String) :
    (modyfyCredit db uid amt memo).reserves = db.reserves := rfl

theorem modyfyCredit_credits (db : DB) (uid amt : Int) (memo : String) :
    (modyfyCredit db uid amt memo).credits
      = db.credits ++ [⟨db.nextCreditId, uid, amt, memo⟩] := rfl

theorem modyfyCredit_inv {db : DB} (uid amt : Int) (memo : String)
    (h : creditCacheInv db) : creditCacheInv (modyfyCredit db uid amt memo) := by
  intro u hu
  rw [modyfyCredit] at hu
  simp only [List.mem_map] at hu
  obtain ⟨v, hv, rfl⟩ := hu
  by_cases hid : v.id = uid
  · simp only [modyfyCredit_credits, hid, beq_self_eq_true, if_true]
  · simp only [hid, beq_iff_eq, if_false]
    rw [modyfyCredit_credits, sumCredits_append_single]
    simp only [Ne.symm hid, if_false, add_zero]
    exact h v hv

theorem foldl_modyfyCredit_inv (rs : List ReserveRow) (db : DB)
    (h : creditCacheInv db) :
    creditCacheInv
      (rs.foldl (fun d r => modyfyCredit d r.userId r.amount r.note) db) := by
  induction rs generalizing db with
  | nil => exact h
  | cons r rs ih => exact ih _ (modyfyCredit_inv _ _ _ h)

theorem foldl_modyfyCredit_reserves (rs : List ReserveRow) (db : DB) :
    (rs.foldl (fun d r => modyfyCredit d r.userId r.amount r.note) db).reserves
      = db.reserves := by
  induction rs generalizing db with
  | nil => rfl
  | cons r rs ih => rw [List.foldl_cons, ih, modyfyCredit_reserves]

theorem foldl_modyfyCredit_credits (rs : List ReserveRow) (db : DB) :
    ((rs.foldl (fun d r => modyfyCredit d r.userId r.amount r.note) db).credits).map
        creditProj
      = db.credits.map creditProj ++ rs.map reserveProj := by
  induction rs generalizing db with
  | nil => simp
  | cons r rs ih =>
      rw [List.foldl_cons, ih, modyfyCredit_credits]
      simp [creditProj, reserveProj]

theorem reserveTx_neg (db : DB) (uid price : Int) (memo : String) (now : Int)
    (hneg : price < 0) :
    reserveTx db uid price memo now =
      (if sumCredits db.credits uid + pendingWithdrawal db uid (now + 60) + price < 0
       then .error .creditInsufficient
       else .ok ({ db with
            reserves := db.reserves ++
              [⟨db.nextReserveId, uid, price, memo, true, now, now + 60⟩],
            nextReserveId := db.nextReserveId + 1 }, db.nextReserveId)) := by
  simp only [reserveTx, hneg, if_true, decide_true_eq_true]

theorem reserveTx_ok_tables {db db1 : DB} {uid price : Int} {memo : String}
    {now rid : Int} (h : reserveTx db uid price memo now = .ok (db1, rid)) :
    db1.users = db.users ∧ db1.credits = db.credits := by
  simp only [reserveTx] at h
  split at h
  · split at h
    · exact absurd h (by simp)
    · injection h with h2
      injection h2 with h3 h4
      subst h3
      exact ⟨rfl, rfl⟩
  · injection h with h2
    injection h2 with h3 h4
    subst h3
    exact ⟨rfl, rfl⟩

theorem reserveOkResponse_ne_insufficient (rid : Int) :
    reserveOkResponse rid ≠ errorResponse "credit is insufficient" 200 := by
  intro h
  have hb := congrArg (fun r => r.body.data) h
  simp only [reserveOkResponse, errorResponse, errorBody, String.data_append] at hb
  rw [List.append_assoc] at hb
  have ht := congrArg (fun l => l.take 12) hb
  simp only at ht
  rw [List.take_append_of_le_length (by decide)] at ht
  exact absurd ht (by decide)

/-- A sample database: one user `"a"` with a single 100-credit ledger entry. -/
def dbA : DB :=
  { users := [⟨1, "a", 100⟩],
    credits := [⟨1, 1, 100, "by add credit API"⟩],
    reserves := [],
    nextUserId := 2, nextCreditId := 2, nextReserveId := 1 }

/-- C2: a `Reserve` call with a negative amount on an existing user fails with
`CreditInsufficient` — HTTP 200 whose body is the `ng` encoding of
`"credit is insufficient"` — exactly when
`ledger_balance + pending_withdrawal + amount < 0`, where the pending withdrawal
sums the user's `is_minus = 1` reservations with `expire_at >= now + 60s`; and
on that failure no reservation row is inserted (the whole state is unchanged). -/
theorem reserve_negative_insufficiency (db : DB) (appID bankID : String)
    (price now : Int) (u : UserRow)
    (hneg : price < 0) (hb : bankID ≠ "") (hu : findUser db bankID = some u) :
    ((reserveHandler db appID bankID price now).2
        = errorResponse "credit is insufficient" 200
      ↔ sumCredits db.credits u.id + pendingWithdrawal db u.id (now + 60) + price < 0)
    ∧ (sumCredits db.credits u.id + pendingWithdrawal db u.id (now + 60) + price < 0
        → (reserveHandler db appID bankID price now).1 = db) := by
  have hpz : (price == 0) = false := by simp; omega
  have hbz : (bankID == "") = false := by simp [hb]
  simp only [reserveHandler, hpz, hbz, Bool.false_eq_true, if_false, hu]
  rw [reserveTx_neg db u.id price (reserveNote appID price) now hneg]
  by_cases hc : sumCredits db.credits u.id + pendingWithdrawal db u.id (now + 60) + price < 0
  · simp [hc]
  · simp only [hc, if_false]
    exact ⟨⟨fun h => absurd h (reserveOkResponse_ne_insufficient _), False.elim⟩,
           False.elim⟩

/-- Witness for C2 at a concrete input: user `"a"` holds 100, a reservation of
−200 is refused with the 200/`ng` insufficiency response and leaves the
database unchanged. -/
theorem reserve_negative_insufficiency_witness :
    (reserveHandler dbA "x" "a" (-200) 0).2 = errorResponse "credit is insufficient" 200
    ∧ (reserveHandler dbA "x" "a" (-200) 0).1 = dbA :=
  ⟨(reserve_negative_insufficiency dbA "x" "a" (-200) 0 ⟨1, "a", 100⟩
      (by decide) (by decide) (by decide)).1.mpr (by decide),
   (reserve_negative_insufficiency dbA "x" "a" (-200) 0 ⟨1, "a", 100⟩
      (by decide) (by decide) (by decide)).2 (by decide)⟩

/-- C7: `Check` on an existing user with positive price changes no state, reads
only the cached `user.credit` column (its response is unchanged under any
modification of the `reserve` table), succeeds exactly when
`credit_cache >= price`, and reports insufficiency as HTTP 200 with the `ng`
body for `"credit is insufficient"`. -/
theorem check_uses_cached_balance (db : DB) (bankID : String) (price : Int)
    (u : UserRow) (hp : 0 < price) (hb : bankID ≠ "")
    (hu : findUser db bankID = some u) :
    (checkHandler db bankID price).1 = db
    ∧ ((checkHandler db bankID price).2 = successResponse ↔ price ≤ u.credit)
    ∧ (u.credit < price →
        (checkHandler db bankID price).2 = errorResponse "credit is insufficient" 200)
    ∧ (∀ rs nr,
        (checkHandler { db with reserves := rs, nextReserveId := nr } bankID price).2
          = (checkHandler db bankID price).2) := by
  have hpz : ¬ price ≤ 0 := by omega
  have hbz : (bankID == "") = false := by simp [hb]
  have hu2 : ∀ rs nr,
      findUser { db with reserves := rs, nextReserveId := nr } bankID = some u :=
    fun _ _ => hu
  have hred : checkHandler db bankID price
      = (if u.credit < price then (db, errorResponse "credit is insufficient" 200)
         else (db, successResponse)) := by
    simp only [checkHandler, hpz, if_false, hbz, Bool.false_eq_true, hu]
  have hred2 : ∀ rs nr,
      checkHandler { db with reserves := rs, nextReserveId := nr } bankID price
        = (if u.credit < price
           then ({ db with reserves := rs, nextReserveId := nr },
                 errorResponse "credit is insufficient" 200)
           else ({ db with reserves := rs, nextReserveId := nr }, successResponse)) := by
    intro rs nr
    simp only [checkHandler, hpz, if_false, hbz, Bool.false_eq_true, hu2]
  by_cases hcred : u.credit < price
  · refine ⟨?_, ?_, ?_, ?_⟩
    · rw [hred, if_pos hcred]
    · rw [hred, if_pos hcred]
      exact ⟨fun h =>
        absurd (show errorResponse "credit is insufficient" 200 = successResponse from h)
          (by decide),
        fun h => absurd hcred (not_lt.mpr h)⟩
    · intro _
      rw [hred, if_pos hcred]
    · intro rs nr
      rw [hred, hred2, if_pos hcred, if_pos hcred]
  · refine ⟨?_, ?_, ?_, ?_⟩
    · rw [hred, if_neg hcred]
    · rw [hred, if_neg hcred]
      exact ⟨fun _ => not_lt.mp hcred, fun _ => rfl⟩
    · intro h
      exact absurd h hcred
    · intro rs nr
      rw [hred, hred2, if_neg hcred, if_neg hcred]

/-- Witness for C7 at a concrete input: user `"a"` caches 100; `check` for 150
leaves the state unchanged and answers HTTP 200 with the `ng` insufficiency
body. -/
theorem check_uses_cached_balance_witness :
    (checkHandler dbA "a" 150).1 = dbA
    ∧ (checkHandler dbA "a" 150).2 = errorResponse "credit is insufficient" 200 :=
  ⟨(check_uses_cached_balance dbA "a" 150 ⟨1, "a", 100⟩
      (by decide) (by decide) (by decide)).1,
   (check_uses_cached_balance dbA "a" 150 ⟨1, "a", 100⟩
      (by decide) (by decide) (by decide)).2.2.1 (by decide)⟩

/-- C9: `txScorp` ends every run in exactly one of commit or rollback: it
commits precisely when the closure returns normally, propagates a returned
error verbatim after rolling back, and converts a panic into an internal error
after rolling back. -/
theorem txScorp_scoped_transaction (db : DB) (f : DB → TxOut DB) :
    ((txScorp db f).2.2 = TxEnd.committed ∨ (txScorp db f).2.2 = TxEnd.rolledBack)
    ∧ ((txScorp db f).2.2 = TxEnd.committed ↔ ∃ db1, f db = TxOut.ok db1)
    ∧ (∀ db1, f db = TxOut.ok db1 → txScorp db f = (db1, none, TxEnd.committed))
    ∧ (∀ e, f db = TxOut.err e → txScorp db f = (db, some e, TxEnd.rolledBack))
    ∧ (∀ msg, f db = TxOut.panicEnd msg →
        txScorp db f
          = (db, some (BankErr.internalErr ("panic in transaction: " ++ msg)),
              TxEnd.rolledBack)) := by
  rcases hf : f db with db1 | e | msg <;> simp [txScorp, hf]

/-- The constantly-failing closure used to witness C9. -/
def fErr : DB → TxOut DB := fun _ => TxOut.err BankErr.creditInsufficient

/-- Witness for C9 at a concrete input: a closure returning the
`CreditIsInsufficient` sentinel makes `txScorp` roll back and return that very
error. -/
theorem txScorp_scoped_transaction_witness :
    txScorp dbA fErr = (dbA, some BankErr.creditInsufficient, TxEnd.rolledBack) :=
  (txScorp_scoped_transaction dbA fErr).2.2.2.1 BankErr.creditInsufficient rfl

/-- A sample database: user `"a"` holds 100 with one pending −40 reservation. -/
def dbB : DB :=
  { users := [⟨1, "a", 100⟩],
    credits := [⟨1, 1, 100, "by add credit API"⟩],
    reserves := [⟨1, 1, -40, "app:x, price:-40", true, 0, 60⟩],
    nextUserId := 2, nextCreditId := 2, nextReserveId := 2 }

/-- `dbB` after `Commit([1])`: the reservation is gone, its −40 is a ledger
entry, the cached credit is 60. -/
def dbBCommitted : DB :=
  { users := [⟨1, "a", 60⟩],
    credits := [⟨1, 1, 100, "by add credit API"⟩, ⟨2, 1, -40, "app:x, price:-40"⟩],
    reserves := [],
    nextUserId := 2, nextCreditId := 3, nextReserveId := 2 }

/-- `dbB` after `Cancel([1])`: the reservation is gone and nothing else moved. -/
def dbBCancelled : DB :=
  { users := [⟨1, "a", 100⟩],
    credits := [⟨1, 1, 100, "by add credit API"⟩],
    reserves := [],
    nextUserId := 2, nextCreditId := 2, nextReserveId := 2 }

/-- C3: when the `Commit` transaction body succeeds, every reservation row
whose id is in the committed set is gone from the reserve table, and the ledger
is the old ledger with exactly one appended entry per materialised reservation,
carrying the same `(user_id, amount, note)`, in the order of the locking read. -/
theorem commit_success_postcondition (db db1 : DB) (ids : List Int) (now : Int)
    (h : commitTx db ids now = .ok db1) :
    db1.reserves = db.reserves.filter (fun r => !(ids.contains r.id))
    ∧ (∀ r ∈ db1.reserves, r.id ∉ ids)
    ∧ db1.credits.map creditProj
        = db.credits.map creditProj ++ (materialise db ids).map reserveProj := by
  simp only [commitTx] at h
  split at h
  · exact absurd h (by simp)
  · split at h
    · exact absurd h (by simp)
    · injection h with h2
      subst h2
      refine ⟨?_, ?_, ?_⟩
      · exact congrArg (List.filter _) (foldl_modyfyCredit_reserves _ _)
      · intro r hr
        have := congrArg (List.filter fun r => !(ids.contains r.id))
          (foldl_modyfyCredit_reserves (materialise db ids) db)
        rw [show ({ (materialise db ids).foldl
              (fun d r => modyfyCredit d r.userId r.amount r.note) db with
              reserves := ((materialise db ids).foldl
                (fun d r => modyfyCredit d r.userId r.amount r.note) db).reserves.filter
                  (fun r => !(ids.contains r.id)) } : DB).reserves
            = ((materialise db ids).foldl
                (fun d r => modyfyCredit d r.userId r.amount r.note) db).reserves.filter
                  (fun r => !(ids.contains r.id)) from rfl] at hr
        rw [List.mem_filter] at hr
        simpa using hr.2
      · exact foldl_modyfyCredit_credits _ _

/-- Witness for C3 at a concrete input: committing reservation 1 of `dbB`
removes the row and appends the matching ledger entry. -/
theorem commit_success_postcondition_witness :
    dbBCommitted.reserves = dbB.reserves.filter (fun r => !([(1 : Int)].contains r.id))
    ∧ dbBCommitted.credits.map creditProj
        = dbB.credits.map creditProj ++ (materialise dbB [1]).map reserveProj :=
  ⟨(commit_success_postcondition dbB dbBCommitted [1] 0 (by decide)).1,
   (commit_success_postcondition dbB dbBCommitted [1] 0 (by decide)).2.2⟩

/-- C4: whenever `Commit` answers anything but the success response, the
database — reserve table, ledger and every cached credit included — is exactly
the pre-call state: the enclosing transaction was rolled back. -/
theorem commit_failure_rollback (db : DB) (ids : List Int) (now : Int)
    (h : (commitHandler db ids now).2 ≠ successResponse) :
    (commitHandler db ids now).1 = db := by
  by_cases hz : (ids.length == 0) = true
  · simp [commitHandler, hz]
  · simp only [commitHandler, hz, Bool.false_eq_true, if_false] at h ⊢
    cases hc : commitTx db ids now with
    | ok db1 =>
        rw [hc] at h
        exact absurd rfl h
    | error e =>
        cases e <;> simp [hc]

/-- Witness for C4 at a concrete input: committing the nonexistent reservation
1 on `dbA` fails and leaves `dbA` unchanged. -/
theorem commit_failure_rollback_witness :
    (commitHandler dbA [1] 0).2 ≠ successResponse
    ∧ (commitHandler dbA [1] 0).1 = dbA :=
  ⟨by decide, commit_failure_rollback dbA [1] 0 (by decide)⟩

/-- C5: `Commit` checks in two stages — a liveness COUNT that fails with
`"reserve is already expired"` (HTTP 400) when short of `len(ids)`, then a
locking read that fails with `"reserve is already commited"` (HTTP 400) when
it returns fewer rows — and only when both pass does it apply the ledger
writes and delete the rows. -/
theorem commit_two_stage_check (db : DB) (ids : List Int) (now : Int)
    (hne : ids ≠ []) :
    (liveCount db ids now < ids.length →
        commitHandler db ids now = (db, errorResponse "reserve is already expired" 400))
    ∧ (¬ liveCount db ids now < ids.length →
        (materialise db ids).length ≠ ids.length →
        commitHandler db ids now = (db, errorResponse "reserve is already commited" 400))
    ∧ (¬ liveCount db ids now < ids.length →
        (materialise db ids).length = ids.length →
        commitHandler db ids now =
          (let db1 := (materialise db ids).foldl
              (fun d r => modyfyCredit d r.userId r.amount r.note) db
           { db1 with reserves := db1.reserves.filter (fun r => !(ids.contains r.id)) },
           successResponse)) := by
  have hz : (ids.length == 0) = false := by
    simp [List.length_eq_zero, hne]
  refine ⟨fun h1 => ?_, fun h1 h2 => ?_, fun h1 h2 => ?_⟩
  · simp [commitHandler, hz, commitTx, h1]
  · simp [commitHandler, hz, commitTx, h1, h2]
  · simp [commitHandler, hz, commitTx, h1, h2]

/-- Witness for C5 at a concrete input: on `dbB` with its one live reservation,
committing `[1]` takes the success path and committing `[2]` fails the
liveness precheck. -/
theorem commit_two_stage_check_witness :
    commitHandler dbB [2] 0 = (dbB, errorResponse "reserve is already expired" 400)
    ∧ commitHandler dbB [1] 0 = (dbBCommitted, successResponse) := by
  constructor
  · exact (commit_two_stage_check dbB [2] 0 (by decide)).1 (by decide)
  · have h := (commit_two_stage_check dbB [1] 0 (by decide)).2.2 (by decide) (by decide)
    rw [h]
    decide

theorem cancelTx_ok_tables {db db1 : DB} {ids : List Int}
    (h : cancelTx db ids = .ok db1) :
    db1.reserves = db.reserves.filter (fun r => !(ids.contains r.id))
    ∧ db1.credits = db.credits ∧ db1.users = db.users := by
  simp only [cancelTx] at h
  split at h
  · exact absurd h (by simp)
  · split at h
    · exact absurd h (by simp)
    · injection h with h2
      subst h2
      exact ⟨rfl, rfl, rfl⟩

/-- C8: the `Cancel` transaction body succeeds exactly when every listed id has
a matching reserve row — the precheck carries no `expire_at` predicate, so an
expired reservation can still be cancelled (the body takes no clock at all) —
and on success it deletes exactly the listed rows while writing no ledger entry
and touching no user's cached credit. -/
theorem cancel_no_expiry_no_ledger (db : DB) (ids : List Int) :
    ((∃ db1, cancelTx db ids = .ok db1)
        ↔ (materialise db ids).length = ids.length)
    ∧ (∀ db1, cancelTx db ids = .ok db1 →
        db1.reserves = db.reserves.filter (fun r => !(ids.contains r.id))
        ∧ db1.credits = db.credits ∧ db1.users = db.users) := by
  constructor
  · constructor
    · rintro ⟨db1, h⟩
      simp only [cancelTx] at h
      split at h
      · exact absurd h (by simp)
      · split at h
        · exact absurd h (by simp)
        · next h1 h2 => omega
    · intro hm
      simp only [cancelTx]
      rw [if_neg (by omega), if_neg (by omega)]
      exact ⟨_, rfl⟩
  · exact fun db1 h => cancelTx_ok_tables h

/-- Witness for C8 at a concrete input: cancelling reservation 1 of `dbB`
deletes the row and leaves ledger and users untouched. -/
theorem cancel_no_expiry_no_ledger_witness :
    dbBCancelled.reserves = dbB.reserves.filter (fun r => !([(1 : Int)].contains r.id))
    ∧ dbBCancelled.credits = dbB.credits ∧ dbBCancelled.users = dbB.users :=
  (cancel_no_expiry_no_ledger dbB [1]).2 dbBCancelled (by decide)

theorem length_filter_and_le {α : Type} (l : List α) (p q : α → Bool) :
    (l.filter (fun a => p a && q a)).length ≤ (l.filter p).length := by
  induction l with
  | nil => simp
  | cons a t ih =>
      by_cases hp : p a <;> by_cases hq : q a <;>
        simp [hp, hq] <;> omega

/-- C10: a duplicated id in the `reserve_ids` list makes both `Commit` and
`Cancel` fail with no state change even when every referenced reservation
exists and is live: the prechecks count distinct table rows against the list
length, so duplicates leave the count short — `Commit` answers
`"reserve is already expired"` and `Cancel` `"reserve is already commited"`,
both HTTP 400. -/
theorem duplicate_ids_rejected (db : DB) (ids : List Int) (now : Int)
    (hdup : ¬ ids.Nodup) (hnd : (db.reserves.map (fun r => r.id)).Nodup) :
    commitHandler db ids now = (db, errorResponse "reserve is already expired" 400)
    ∧ cancelHandler db ids = (db, errorResponse "reserve is already commited" 400) := by
  have hmat : (materialise db ids).length < ids.length := by
    have h1 : ((materialise db ids).map (fun r => r.id)).Nodup :=
      hnd.sublist (List.Sublist.map _ (List.filter_sublist _))
    have h2 : (materialise db ids).map (fun r => r.id) ⊆ ids.dedup := by
      intro x hx
      simp only [List.mem_map, materialise, List.mem_filter] at hx
      obtain ⟨r, ⟨_, hcont⟩, rfl⟩ := hx
      rw [List.mem_dedup]
      simpa using hcont
    have h3 : ((materialise db ids).map (fun r => r.id)).length ≤ ids.dedup.length :=
      (h1.subperm h2).length_le
    have h4 : ids.dedup.length < ids.length := by
      rcases Nat.lt_or_ge ids.dedup.length ids.length with h | h
      · exact h
      · exfalso
        have hs := ids.dedup_sublist
        have he : ids.dedup = ids :=
          hs.eq_of_length (le_antisymm hs.length_le h)
        exact hdup (he ▸ ids.nodup_dedup)
    have h5 : (materialise db ids).length
        = ((materialise db ids).map (fun r => r.id)).length :=
      (List.length_map _ _).symm
    omega
  have hlive : liveCount db ids now < ids.length := by
    have hle : liveCount db ids now ≤ (materialise db ids).length :=
      length_filter_and_le db.reserves (fun r => ids.contains r.id)
        (fun r => decide (now ≤ r.expireAt))
    omega
  have hne : ids ≠ [] := by
    intro h
    exact hdup (h ▸ List.nodup_nil)
  have hz : (ids.length == 0) = false := by
    simp [List.length_eq_zero, hne]
  constructor
  · simp [commitHandler, hz, commitTx, hlive]
  · simp [cancelHandler, hz, cancelTx, hmat]

/-- A sample database with two live reservations (ids 1 and 2) on user 1. -/
def dbD : DB :=
  { users := [⟨1, "a", 0⟩],
    credits := [],
    reserves := [⟨1, 1, 5, "n", false, 0, 60⟩, ⟨2, 1, 7, "m", false, 0, 60⟩],
    nextUserId := 2, nextCreditId := 1, nextReserveId := 3 }

/-- Witness for C10 at a concrete input: both reservations of `dbD` are live,
yet `Commit([1,1])` and `Cancel([1,1])` are rejected with no state change. -/
theorem duplicate_ids_rejected_witness :
    commitHandler dbD [1, 1] 0 = (dbD, errorResponse "reserve is already expired" 400)
    ∧ cancelHandler dbD [1, 1] = (dbD, errorResponse "reserve is already commited" 400) :=
  duplicate_ids_rejected dbD [1, 1] 0 (by decide) (by decide)

theorem inv_of_tables {db db1 : DB} (hu : db1.users = db.users)
    (hc : db1.credits = db.credits) (hinv : creditCacheInv db) :
    creditCacheInv db1 := by
  intro u hmem
  rw [hc]
  exact hinv u (hu ▸ hmem)

theorem sumCredits_fresh {db : DB} (hb : idsBounded db) (ho : creditsOwned db) :
    sumCredits db.credits db.nextUserId = 0 := by
  have hnil : db.credits.filter (fun c => c.userId == db.nextUserId) = [] := by
    rw [List.filter_eq_nil_iff]
    intro c hc
    obtain ⟨u, hu, he⟩ := ho c hc
    have := hb u hu
    simp only [beq_iff_eq]
    omega
  rw [sumCredits, hnil]
  rfl

theorem register_inv (db : DB) (bankID : String) (hinv : creditCacheInv db)
    (hb : idsBounded db) (ho : creditsOwned db) :
    creditCacheInv (registerHandler db bankID).1 := by
  rw [registerHandler]
  split
  · exact hinv
  · split
    · exact hinv
    · intro u hu
      simp only [List.mem_append, List.mem_singleton] at hu
      rcases hu with hu | rfl
      · exact hinv u hu
      · simpa [newUserCredit] using (sumCredits_fresh hb ho).symm

theorem addCredit_inv (db : DB) (bankID : String) (price : Int)
    (hinv : creditCacheInv db) :
    creditCacheInv (addCreditHandler db bankID price).1 := by
  rw [addCreditHandler]
  split
  · exact hinv
  · split
    · exact hinv
    · split
      · exact hinv
      · exact modyfyCredit_inv _ _ _ hinv

theorem check_inv (db : DB) (bankID : String) (price : Int)
    (hinv : creditCacheInv db) :
    creditCacheInv (checkHandler db bankID price).1 := by
  rw [checkHandler]
  split
  · exact hinv
  · split
    · exact hinv
    · split
      · exact hinv
      · split
        · exact hinv
        · exact hinv

theorem reserve_inv (db : DB) (appID bankID : String) (price now : Int)
    (hinv : creditCacheInv db) :
    creditCacheInv (reserveHandler db appID bankID price now).1 := by
  rw [reserveHandler]
  split
  · exact hinv
  · split
    · exact hinv
    · split
      · exact hinv
      · next u _ =>
          cases hrt : reserveTx db u.id price (reserveNote appID price) now with
          | error e =>
              cases e <;> simp only [hrt] <;> exact hinv
          | ok p =>
              obtain ⟨db1, rid⟩ := p
              simp only [hrt]
              exact inv_of_tables (reserveTx_ok_tables hrt).1
                (reserveTx_ok_tables hrt).2 hinv

theorem commit_inv (db : DB) (ids : List Int) (now : Int)
    (hinv : creditCacheInv db) :
    creditCacheInv (commitHandler db ids now).1 := by
  rw [commitHandler]
  split
  · exact hinv
  · cases hc : commitTx db ids now with
    | error e => cases e <;> simp only [hc] <;> exact hinv
    | ok db1 =>
        simp only [hc]
        simp only [commitTx] at hc
        split at hc
        · exact absurd hc (by simp)
        · split at hc
          · exact absurd hc (by simp)
          · injection hc with h2
            subst h2
            exact inv_of_tables rfl rfl (foldl_modyfyCredit_inv _ _ hinv)

theorem cancel_inv (db : DB) (ids : List Int) (hinv : creditCacheInv db) :
    creditCacheInv (cancelHandler db ids).1 := by
  rw [cancelHandler]
  split
  · exact hinv
  · cases hc : cancelTx db ids with
    | error e => cases e <;> simp only [hc] <;> exact hinv
    | ok db1 =>
        simp only [hc]
        exact inv_of_tables (cancelTx_ok_tables hc).2.2 (cancelTx_ok_tables hc).2.1 hinv

/-- C6: from any well-formed state in which every user's cached `credit`
equals their ledger sum, each of the six operations — register, add_credit,
check, reserve, commit, cancel — again ends in a state satisfying
`user.credit == SUM(credit.amount)` for every user: every path that appends a
ledger entry goes through `modyfyCredit`, which recomputes and stores the sum
in the same transaction, and no other path writes `user.credit`. -/
theorem credit_cache_invariant (db : DB) (hinv : creditCacheInv db)
    (hb : idsBounded db) (ho : creditsOwned db) :
    (∀ bankID, creditCacheInv (registerHandler db bankID).1)
    ∧ (∀ bankID price, creditCacheInv (addCreditHandler db bankID price).1)
    ∧ (∀ bankID price, creditCacheInv (checkHandler db bankID price).1)
    ∧ (∀ appID bankID price now,
        creditCacheInv (reserveHandler db appID bankID price now).1)
    ∧ (∀ ids now, creditCacheInv (commitHandler db ids now).1)
    ∧ (∀ ids, creditCacheInv (cancelHandler db ids).1) :=
  ⟨fun bankID => register_inv db bankID hinv hb ho,
   fun bankID price => addCredit_inv db bankID price hinv,
   fun bankID price => check_inv db bankID price hinv,
   fun appID bankID price now => reserve_inv db appID bankID price now hinv,
   fun ids now => commit_inv db ids now hinv,
   fun ids => cancel_inv db ids hinv⟩

/-- Witness for C6 at a concrete input: `dbB` satisfies I1 and still does after
`Commit([1])` turns its reservation into a ledger entry. -/
theorem credit_cache_invariant_witness :
    creditCacheInv (commitHandler dbB [1] 0).1 :=
  (credit_cache_invariant dbB (by unfold creditCacheInv; decide)
    (by unfold idsBounded; decide) (by unfold creditsOwned; decide)).2.2.2.2.1 [1] 0

/-- A sample database: two users, each with one live reservation. -/
def dbC : DB :=
  { users := [⟨1, "a", 0⟩, ⟨2, "b", 0⟩],
    credits := [],
    reserves := [⟨1, 1, 5, "n", false, 0, 100⟩, ⟨2, 2, 7, "m", false, 0, 100⟩],
    nextUserId := 3, nextCreditId := 1, nextReserveId := 3 }

/-- C1 fails on the code: committing (or cancelling) the two reservations of
`dbC`, which involve users 1 and 2, the user-locking statement returns — and
therefore locks — only user 1, not the deduplicated ascending set `[1, 2]` the
claim demands; user 2 is an involved user yet absent from the locked rows. -/
theorem lock_step_counterexample :
    lockStepUsers dbC [1, 2] ≠ specLockStepUsers dbC [1, 2]
    ∧ 2 ∈ (materialise dbC [1, 2]).map (fun r => r.userId)
    ∧ 2 ∉ lockStepUsers dbC [1, 2] := by decide

/-- C1 amended: before any ledger write or reservation delete, Commit and
Cancel issue one user-lock SELECT whose id list is the materialised
reservations' `user_id`s in read order — not deduplicated, not sorted — and
which carries `LIMIT 1`, so the step locks at most one user row, and any row it
locks belongs to an involved user; it does not lock every involved user. -/
theorem lock_step_amended (db : DB) (ids : List Int) :
    (lockStepUsers db ids).length ≤ 1
    ∧ (∀ x ∈ lockStepUsers db ids,
        x ∈ (materialise db ids).map (fun r => r.userId)) := by
  constructor
  · exact List.length_take_le 1 _
  · intro x hx
    simp only [lockStepUsers] at hx
    have hx2 := List.take_subset 1 _ hx
    simp only [List.mem_map, List.mem_filter] at hx2
    obtain ⟨u, ⟨_, hcont⟩, rfl⟩ := hx2
    simpa using hcont

/-- Witness for C1's amended statement at a concrete input: on `dbC` the lock
step returns at most one row and user 1, the row it returns, is involved. -/
theorem lock_step_amended_witness :
    (lockStepUsers dbC [1, 2]).length ≤ 1
    ∧ 1 ∈ (materialise dbC [1, 2]).map (fun r => r.userId) :=
  ⟨(lock_step_amended dbC [1, 2]).1,
   (lock_step_amended dbC [1, 2]).2 1 (by decide)⟩

end IsuBank
